import Mathlib

/-!
Verification of the local media ingestion & indexing pipeline
(`LocalVideoProcessor` in `backend/director/tools/local_video_processor.py`
and the dispatch layer `LocalVideoAgent` in
`backend/director/agents/local_video_agent.py`).

The SQLite tables are modelled as insertion-ordered lists of row records;
`REAL` columns become `ℚ`, and timestamps (`created_at`) are omitted since no
claim mentions them.  External engines (ffmpeg transcode, ffmpeg audio
extraction, Whisper, PySceneDetect, ffmpeg keyframe extraction) are passed in
as explicit outcome parameters, faithful to the way the Python code consumes
them; the on-disk file set is modelled as a list of path strings.  SQLite's
default `LIKE` semantics (`%`/`_` wildcards, ASCII-only case folding, and the
`foreign_keys` pragma left off so the declared foreign keys are not enforced)
are embedded directly.
-/

/-- One row of the `videos` table (`id` is the primary key; `created_at`
omitted). -/
structure VideoRow where
  id : String
  filename : String
  duration : ℚ
  fps : ℚ
  width : Int
  height : Int
deriving DecidableEq

/-- One row of the `transcripts` table (the AUTOINCREMENT surrogate key is
omitted; rows are kept in insertion order). -/
structure TranscriptRow where
  video_id : String
  start_time : ℚ
  end_time : ℚ
  text : String
  confidence : ℚ
deriving DecidableEq

/-- One row of the `scenes` table (surrogate key omitted). -/
structure SceneRow where
  video_id : String
  scene_number : Nat
  start_time : ℚ
  end_time : ℚ
  frame_path : String
deriving DecidableEq

/-- The SQLite database `video_index.db`: the three tables created by
`_init_database`.  The `foreign_keys` pragma is never enabled by the code, so
the declared foreign keys impose no constraint here. -/
structure Database where
  videos : List VideoRow
  transcripts : List TranscriptRow
  scenes : List SceneRow
deriving DecidableEq

/-- A transcript segment as built inside `transcribe_video` before insertion
(the `transcript_data` dictionaries). -/
structure Segment where
  start_time : ℚ
  end_time : ℚ
  text : String
  confidence : ℚ
deriving DecidableEq

/-- Turning a segment dictionary into the row inserted by
`_save_transcript_to_db`. -/
def Segment.toRow (vid : String) (s : Segment) : TranscriptRow :=
  ⟨vid, s.start_time, s.end_time, s.text, s.confidence⟩

/-- A scene dictionary as built inside `detect_scenes` (the `scenes_data`
entries). -/
structure SceneData where
  scene_number : Nat
  start_time : ℚ
  end_time : ℚ
  frame_path : String
deriving DecidableEq

/-- Turning a scene dictionary into the row inserted by
`_save_scenes_to_db`. -/
def SceneData.toRow (vid : String) (s : SceneData) : SceneRow :=
  ⟨vid, s.scene_number, s.start_time, s.end_time, s.frame_path⟩

/-! ### SQLite `LIKE` semantics

`search_transcript` issues `text LIKE '%' || query || '%'`.  SQLite's default
`LIKE` treats `%` as "any sequence", `_` as "any single character", and
compares remaining characters case-insensitively for ASCII only.  We embed
this by tokenizing the pattern string and running a standard wildcard
matcher; `Char.toLower` in Lean folds exactly the ASCII range, matching
SQLite's default. -/

/-- ASCII-case-insensitive character comparison, as SQLite's default `LIKE`
performs. -/
def charEqCI (a b : Char) : Bool := a.toLower == b.toLower

/-- A `LIKE` pattern token: `%`, `_`, or a literal character. -/
inductive LikeTok where
  | any : LikeTok
  | one : LikeTok
  | lit : Char → LikeTok
deriving DecidableEq

/-- Tokenizing one pattern character. -/
def tokChar (c : Char) : LikeTok :=
  if c = '%' then .any else if c = '_' then .one else .lit c

/-- Tokenizing a `LIKE` pattern string. -/
def tokenize (l : List Char) : List LikeTok := l.map tokChar

/-- All suffixes of a character list (used to resolve `%`). -/
def suffixes : List Char → List (List Char)
  | [] => [[]]
  | d :: ts => (d :: ts) :: suffixes ts

/-- The `LIKE` wildcard matcher: `%` matches any (possibly empty) prefix of
the remaining text, `_` any single character, and a literal character is
compared ASCII-case-insensitively. -/
def likeMatchT : List LikeTok → List Char → Bool
  | [], t => t.isEmpty
  | .any :: ps, t => (suffixes t).any fun t2 => likeMatchT ps t2
  | .one :: _, [] => false
  | .one :: ps, _ :: ts => likeMatchT ps ts
  | .lit _ :: _, [] => false
  | .lit c :: ps, d :: ts => charEqCI c d && likeMatchT ps ts

/-- `text LIKE '%' || query || '%'` as evaluated by `search_transcript`. -/
def likeContains (query text : String) : Bool :=
  likeMatchT (tokenize ('%' :: (query.data ++ ['%']))) text.data

/-! ### Metadata Store operations -/

/-- The metadata dictionary returned by `_get_video_info` (no id field). -/
structure VideoInfo where
  filename : String
  duration : ℚ
  fps : ℚ
  width : Int
  height : Int
deriving DecidableEq

/-- The row inserted by `_save_video_to_db`. -/
def VideoInfo.toRow (vid : String) (i : VideoInfo) : VideoRow :=
  ⟨vid, i.filename, i.duration, i.fps, i.width, i.height⟩

/-- `_save_video_to_db`: `INSERT OR REPLACE INTO videos` (the conflicting row,
if any, is deleted and the new row inserted). -/
def save_video_to_db (db : Database) (vid : String) (info : VideoInfo) : Database :=
  { db with videos := db.videos.filter (fun r => !(r.id == vid)) ++ [info.toRow vid] }

/-- `_save_transcript_to_db`: `DELETE FROM transcripts WHERE video_id = ?`
followed by one `INSERT` per segment, committed together.  The function never
consults the `videos` table: with the `foreign_keys` pragma off, the declared
foreign key is not enforced. -/
def save_transcript_to_db (db : Database) (vid : String) (segs : List Segment) : Database :=
  { db with transcripts :=
      db.transcripts.filter (fun r => !(r.video_id == vid)) ++ segs.map (Segment.toRow vid) }

/-- `_save_scenes_to_db`: `DELETE FROM scenes WHERE video_id = ?` followed by
one `INSERT` per scene, committed together. -/
def save_scenes_to_db (db : Database) (vid : String) (scenes : List SceneData) : Database :=
  { db with scenes :=
      db.scenes.filter (fun r => !(r.video_id == vid)) ++ scenes.map (SceneData.toRow vid) }

/-- The comparison used by `ORDER BY start_time`. -/
def startLe (a b : TranscriptRow) : Prop := a.start_time ≤ b.start_time

instance : DecidableRel startLe :=
  fun a b => inferInstanceAs (Decidable (a.start_time ≤ b.start_time))

instance : IsTotal TranscriptRow startLe :=
  ⟨fun a b => le_total a.start_time b.start_time⟩

instance : IsTrans TranscriptRow startLe :=
  ⟨fun _ _ _ h1 h2 => le_trans h1 h2⟩

/-- `search_transcript`: `SELECT … FROM transcripts WHERE video_id = ? AND
text LIKE '%'||q||'%' ORDER BY start_time`.  Sorting is modelled by insertion
sort on `start_time` (SQLite fixes no tie order; no claim depends on it). -/
def search_transcript (db : Database) (vid query : String) : List TranscriptRow :=
  List.insertionSort startLe
    (db.transcripts.filter (fun r => r.video_id == vid && likeContains query r.text))

/-- `get_video_info`: `SELECT … FROM videos WHERE id = ?`; `None` when no row
exists. -/
def get_video_info (db : Database) (vid : String) : Option VideoRow :=
  db.videos.find? (fun r => r.id == vid)

/-! ### Storage layout and file-system model

The on-disk artifact set is a list of path strings.  Stage functions thread
it explicitly; `insertFile` models writing (creating or overwriting) a file,
`removeFile` models `os.remove`. -/

/-- The set of files currently on disk, as a list of paths. -/
abbrev FS := List String

/-- Writing a file at `p` (create or overwrite). -/
def insertFile (fs : FS) (p : String) : FS := p :: fs.filter (fun q => !(q == p))

/-- `os.remove p`. -/
def removeFile (fs : FS) (p : String) : FS := fs.filter (fun q => !(q == p))

/-- Managed path of the normalized video copy (`videos_path / f"{id}.mp4"`). -/
def videoFilePath (vid : String) : String := "videos/" ++ vid ++ ".mp4"

/-- Keyframe path from `_extract_keyframe`
(`frames_path / f"{video_id}_scene_{scene_num}.jpg"`). -/
def framePath (vid : String) (i : Nat) : String :=
  "frames/" ++ vid ++ "_scene_" ++ toString i ++ ".jpg"

/-- Transcript artifact path (`transcripts_path / f"{video_id}.json"`). -/
def transcriptJsonPath (vid : String) : String := "transcripts/" ++ vid ++ ".json"

/-! ### Pipeline stages

Each stage is translated with its external-engine outcomes as parameters: the
Python `try`/`except` around a stage catches any raised error and returns
`{"success": False, "error": str(e)}`, which we model as `Except.error`. -/

/-- The raw values probed from the normalized file by `_get_video_info`
(`cv2.VideoCapture` properties). -/
structure ProbeRaw where
  fps : ℚ
  frame_count : ℚ
  width : Int
  height : Int
deriving DecidableEq

/-- `_get_video_info`: duration is `frame_count / fps if fps > 0 else 0`; the
division is guarded, so probing is total. -/
def get_video_info_probe (filename : String) (p : ProbeRaw) : VideoInfo :=
  ⟨filename, if p.fps > 0 then p.frame_count / p.fps else 0, p.fps, p.width, p.height⟩

/-- Result of a stage call: the returned dictionary (`Except` for
success/error), the database after the call, and the file set after the
call. -/
structure StageOut (α : Type) where
  result : Except String α
  db : Database
  fs : FS

/-- `upload_video` with an explicit caller-supplied id: `_convert_video`
(ffmpeg, may fail) writes the normalized copy, `_get_video_info` probes it,
`_save_video_to_db` commits the row.  A raised transcode error is caught and
returned; nothing is committed in that case. -/
def upload_video (convert : Except String Unit) (probe : ProbeRaw)
    (db : Database) (fs : FS) (video_id : String) : StageOut VideoInfo :=
  match convert with
  | .error e => ⟨.error e, db, fs⟩
  | .ok _ =>
    let fs1 := insertFile fs (videoFilePath video_id)
    let info := get_video_info_probe (video_id ++ ".mp4") probe
    let db1 := save_video_to_db db video_id info
    ⟨.ok info, db1, fs1⟩

/-- One segment as returned by the Whisper engine (`segment["start"]`,
`segment["end"]`, `segment["text"]`, `segment["avg_logprob"]`); `stop` embeds
the `end` field (a Lean keyword). -/
structure WhisperSeg where
  start : ℚ
  stop : ℚ
  text : String
  confidence : ℚ
deriving DecidableEq

/-- The full Whisper result: the segment list and `result["text"]`. -/
structure WhisperResult where
  segments : List WhisperSeg
  full_text : String
deriving DecidableEq

/-- `transcribe_video` builds each transcript entry with `text.strip()`. -/
def segToSegment (s : WhisperSeg) : Segment :=
  ⟨s.start, s.stop, s.text.trim, s.confidence⟩

/-- `transcribe_video`.  `audio_path` is the scratch path allocated by
`tempfile.NamedTemporaryFile(delete=False)` — the file is created on disk
before ffmpeg runs; `extractOk` is the ffmpeg outcome; `engine` is the
Whisper call.  On success the transcript is committed, the raw-result JSON is
written, and only then is the scratch file removed (`os.remove` is on the
success path only). -/
def transcribe_video (whisperAvailable : Bool) (audio_path : String)
    (extractOk : Except String Unit)
    (engine : String → Except String WhisperResult)
    (db : Database) (fs : FS) (video_id : String) : StageOut (List Segment × String) :=
  if whisperAvailable then
    let fs1 := insertFile fs audio_path
    match extractOk with
    | .error e => ⟨.error e, db, fs1⟩
    | .ok _ =>
      match engine audio_path with
      | .error e => ⟨.error e, db, fs1⟩
      | .ok result =>
        let transcript_data := result.segments.map segToSegment
        let db1 := save_transcript_to_db db video_id transcript_data
        let fs2 := insertFile fs1 (transcriptJsonPath video_id)
        let fs3 := removeFile fs2 audio_path
        ⟨.ok (transcript_data, result.full_text), db1, fs3⟩
  else ⟨.error "Whisper model not available", db, fs⟩

/-- The keyframe-extraction loop inside `detect_scenes`: for each boundary,
`_extract_keyframe` (outcome `kf i`) writes `framePath vid i`; a failure
raises, aborting the loop with the files written so far still on disk. -/
def extract_frames (kf : Nat → Except String Unit) (vid : String) :
    List (ℚ × ℚ) → Nat → FS → Except String (List SceneData) × FS
  | [], _, fs => (.ok [], fs)
  | (s, e) :: rest, i, fs =>
    match kf i with
    | .error msg => (.error msg, fs)
    | .ok _ =>
      let path := framePath vid i
      let fs1 := insertFile fs path
      match extract_frames kf vid rest (i + 1) fs1 with
      | (.ok scenes, fs2) => (.ok (⟨i, s, e, path⟩ :: scenes), fs2)
      | (.error msg, fs2) => (.error msg, fs2)

/-- `detect_scenes`: the detector (`SceneManager`) yields boundary pairs in
seconds (or raises); each boundary gets a keyframe; `_save_scenes_to_db`
commits only after every keyframe succeeded. -/
def detect_scenes (detector : Except String (List (ℚ × ℚ)))
    (kf : Nat → Except String Unit)
    (db : Database) (fs : FS) (video_id : String) : StageOut (List SceneData) :=
  match detector with
  | .error e => ⟨.error e, db, fs⟩
  | .ok scene_list =>
    match extract_frames kf video_id scene_list 0 fs with
    | (.error e, fs1) => ⟨.error e, db, fs1⟩
    | (.ok scenes_data, fs1) =>
      ⟨.ok scenes_data, save_scenes_to_db db video_id scenes_data, fs1⟩

/-! ### Agent dispatch layer

`LocalVideoAgent.run` catches every raised exception and turns it into an
error response, so each handler is an `Except`.  Python's `if not x:` is
true for both `None` and `""`; we model the missing/empty parameter as
`""`. -/

/-- `_handle_search` (under the `run` catch-all): missing/empty video id or
query raises `ValueError`; otherwise `search_transcript` runs and the call
succeeds even when it returns no rows. -/
def handle_search (db : Database) (video_id query : String) :
    Except String (List TranscriptRow) :=
  if video_id = "" then .error "Video ID is required for search"
  else if query = "" then .error "Query is required for search"
  else .ok (search_transcript db video_id query)

/-- `_handle_get_info` (under the `run` catch-all): `get_video_info` returning
no row raises `Video not found`. -/
def handle_get_info (db : Database) (video_id : String) : Except String VideoRow :=
  if video_id = "" then .error "Video ID is required to get info"
  else
    match get_video_info db video_id with
    | some info => .ok info
    | none => .error ("Video not found: " ++ video_id)

/-! ### Helper lemmas: file sets and filters -/

theorem mem_insertFile {fs : FS} {p q : String} :
    q ∈ insertFile fs p ↔ q = p ∨ q ∈ fs := by
  simp only [insertFile, List.mem_cons, List.mem_filter, Bool.not_eq_true', beq_eq_false_iff_ne,
    ne_eq]
  constructor
  · rintro (h | ⟨h, _⟩)
    · exact Or.inl h
    · exact Or.inr h
  · rintro (h | h)
    · exact Or.inl h
    · by_cases hq : q = p
      · exact Or.inl hq
      · exact Or.inr ⟨h, hq⟩

theorem mem_insertFile_of_mem {fs : FS} {q : String} (p : String) (h : q ∈ fs) :
    q ∈ insertFile fs p := mem_insertFile.mpr (Or.inr h)

theorem not_mem_removeFile (fs : FS) (p : String) : p ∉ removeFile fs p := by
  simp [removeFile, List.mem_filter]

theorem filter_of_filter_not {α : Type} (p : α → Bool) (l : List α) :
    (l.filter fun a => !(p a)).filter p = [] := by
  induction l with
  | nil => rfl
  | cons a l ih => cases h : p a <;> simp [List.filter_cons, h, ih]

theorem filter_not_idem {α : Type} (p : α → Bool) (l : List α) :
    (l.filter fun a => !(p a)).filter (fun a => !(p a)) = l.filter fun a => !(p a) := by
  induction l with
  | nil => rfl
  | cons a l ih => cases h : p a <;> simp [List.filter_cons, h, ih]

theorem filter_eq_of_no_match {α : Type} (p : α → Bool) (l : List α)
    (h : l.filter p = []) : l.filter (fun a => !(p a)) = l := by
  induction l with
  | nil => rfl
  | cons a l ih =>
    cases hp : p a
    · simp only [List.filter_cons, hp] at h
      simp [List.filter_cons, hp, ih h]
    · simp [List.filter_cons, hp] at h

/-! ### Helper lemmas: the replace-then-select behaviour of the store -/

theorem filter_beq_map_segs (vid : String) (segs : List Segment) :
    (segs.map (Segment.toRow vid)).filter (fun r => r.video_id == vid)
      = segs.map (Segment.toRow vid) := by
  induction segs with
  | nil => rfl
  | cons s segs ih => simp [List.filter_cons, Segment.toRow, ih]

theorem filter_bne_map_segs (vid : String) (segs : List Segment) :
    (segs.map (Segment.toRow vid)).filter (fun r => !(r.video_id == vid)) = [] := by
  induction segs with
  | nil => rfl
  | cons s segs ih => simp [List.filter_cons, Segment.toRow, ih]

theorem filter_beq_map_scenes (vid : String) (sc : List SceneData) :
    (sc.map (SceneData.toRow vid)).filter (fun r => r.video_id == vid)
      = sc.map (SceneData.toRow vid) := by
  induction sc with
  | nil => rfl
  | cons s sc ih => simp [List.filter_cons, SceneData.toRow, ih]

theorem filter_bne_map_scenes (vid : String) (sc : List SceneData) :
    (sc.map (SceneData.toRow vid)).filter (fun r => !(r.video_id == vid)) = [] := by
  induction sc with
  | nil => rfl
  | cons s sc ih => simp [List.filter_cons, SceneData.toRow, ih]

theorem save_transcript_sel (db : Database) (vid : String) (segs : List Segment) :
    (save_transcript_to_db db vid segs).transcripts.filter (fun r => r.video_id == vid)
      = segs.map (Segment.toRow vid) := by
  simp [save_transcript_to_db, List.filter_append, filter_of_filter_not, filter_beq_map_segs]

theorem save_transcript_rest (db : Database) (vid : String) (segs : List Segment) :
    (save_transcript_to_db db vid segs).transcripts.filter (fun r => !(r.video_id == vid))
      = db.transcripts.filter (fun r => !(r.video_id == vid)) := by
  simp [save_transcript_to_db, List.filter_append, filter_not_idem, filter_bne_map_segs]

theorem save_scenes_sel (db : Database) (vid : String) (sc : List SceneData) :
    (save_scenes_to_db db vid sc).scenes.filter (fun r => r.video_id == vid)
      = sc.map (SceneData.toRow vid) := by
  simp [save_scenes_to_db, List.filter_append, filter_of_filter_not, filter_beq_map_scenes]

theorem save_scenes_rest (db : Database) (vid : String) (sc : List SceneData) :
    (save_scenes_to_db db vid sc).scenes.filter (fun r => !(r.video_id == vid))
      = db.scenes.filter (fun r => !(r.video_id == vid)) := by
  simp [save_scenes_to_db, List.filter_append, filter_not_idem, filter_bne_map_scenes]

/-! ### Helper lemmas: the `LIKE` matcher -/

theorem mem_suffixes {t2 t : List Char} : t2 ∈ suffixes t ↔ ∃ a, t = a ++ t2 := by
  induction t with
  | nil =>
    simp only [suffixes, List.mem_singleton]
    constructor
    · rintro rfl; exact ⟨[], rfl⟩
    · rintro ⟨a, ha⟩
      exact (List.append_eq_nil.mp ha.symm).2
  | cons d ts ih =>
    simp only [suffixes, List.mem_cons, ih]
    constructor
    · rintro (rfl | ⟨a, rfl⟩)
      · exact ⟨[], rfl⟩
      · exact ⟨d :: a, rfl⟩
    · rintro ⟨a, ha⟩
      cases a with
      | nil => exact Or.inl (by simpa using ha.symm)
      | cons x a' =>
        simp only [List.cons_append, List.cons.injEq] at ha
        exact Or.inr ⟨a', ha.2⟩

theorem likeMatchT_single_any (t : List Char) : likeMatchT [.any] t = true := by
  simp only [likeMatchT, List.any_eq_true]
  exact ⟨[], mem_suffixes.mpr ⟨t, by simp⟩, rfl⟩

theorem likeMatchT_any_cons (ps : List LikeTok) (t : List Char) :
    likeMatchT (.any :: ps) t = true ↔
      ∃ a b, t = a ++ b ∧ likeMatchT ps b = true := by
  simp only [likeMatchT, List.any_eq_true]
  constructor
  · rintro ⟨t2, hmem, hp⟩
    obtain ⟨a, rfl⟩ := mem_suffixes.mp hmem
    exact ⟨a, t2, rfl, hp⟩
  · rintro ⟨a, b, rfl, hb⟩
    exact ⟨b, mem_suffixes.mpr ⟨a, rfl⟩, hb⟩

theorem likeMatchT_lits_append (q : List Char) (ps : List LikeTok) (t : List Char) :
    likeMatchT (q.map LikeTok.lit ++ ps) t = true ↔
      ∃ a b, t = a ++ b ∧ a.map Char.toLower = q.map Char.toLower ∧
        likeMatchT ps b = true := by
  induction q generalizing t with
  | nil =>
    simp only [List.map_nil, List.nil_append]
    constructor
    · intro h; exact ⟨[], t, rfl, rfl, h⟩
    · rintro ⟨a, b, hab, ha, hb⟩
      obtain rfl := List.map_eq_nil_iff.mp ha
      simpa [hab] using hb
  | cons c q' ih =>
    cases t with
    | nil =>
      simp only [List.map_cons, List.cons_append, likeMatchT]
      constructor
      · intro h; cases h
      · rintro ⟨a, b, hab, ha, hb⟩
        obtain ⟨rfl, rfl⟩ := List.append_eq_nil.mp hab.symm
        simp at ha
    | cons d ts =>
      simp only [List.map_cons, List.cons_append, likeMatchT, Bool.and_eq_true]
      constructor
      · rintro ⟨hcd, h⟩
        obtain ⟨a, b, hab, ha, hb⟩ := (ih ts).mp h
        have hcd' : c.toLower = d.toLower := beq_iff_eq.mp (by simpa [charEqCI] using hcd)
        refine ⟨d :: a, b, by simp [hab], ?_, hb⟩
        simp [List.map_cons, ha, hcd']
      · rintro ⟨a, b, hab, ha, hb⟩
        cases a with
        | nil => simp at ha
        | cons x a' =>
          simp only [List.cons_append, List.cons.injEq] at hab
          obtain ⟨rfl, hts⟩ := hab
          simp only [List.map_cons, List.cons.injEq] at ha
          refine ⟨?_, (ih ts).mpr ⟨a', b, hts, ha.2, hb⟩⟩
          simp [charEqCI, ha.1]

/-- What the claim calls "contains the query as a substring" under the
store's (ASCII-case-insensitive) case policy. -/
def substrCI (q t : String) : Prop :=
  ∃ l r, t.data.map Char.toLower = l ++ q.data.map Char.toLower ++ r

/-- Case-sensitive substring containment (for comparison). -/
def substrCS (q t : String) : Prop :=
  ∃ l r, t.data = l ++ q.data ++ r

theorem substrCS_to_CI {q t : String} (h : substrCS q t) : substrCI q t := by
  obtain ⟨l, r, h⟩ := h
  exact ⟨l.map Char.toLower, r.map Char.toLower, by simp [h]⟩

theorem likeMatchT_lits_pattern (q t : List Char) :
    likeMatchT (.any :: (q.map LikeTok.lit ++ [.any])) t = true ↔
      ∃ l r, t.map Char.toLower = l ++ q.map Char.toLower ++ r := by
  rw [likeMatchT_any_cons]
  constructor
  · rintro ⟨a, b, rfl, hb⟩
    obtain ⟨c, d, rfl, hc, _⟩ := (likeMatchT_lits_append q [.any] b).mp hb
    exact ⟨a.map Char.toLower, d.map Char.toLower, by simp [hc]⟩
  · rintro ⟨l, r, h⟩
    rw [List.append_assoc] at h
    obtain ⟨a, bc, rfl, _, hbc⟩ := List.map_eq_append_iff.mp h
    obtain ⟨c, d, rfl, hc, _⟩ := List.map_eq_append_iff.mp hbc
    refine ⟨a, c ++ d, rfl, ?_⟩
    exact (likeMatchT_lits_append q [.any] (c ++ d)).mpr
      ⟨c, d, rfl, hc, likeMatchT_single_any d⟩

instance (q t : String) : Decidable (substrCI q t) :=
  decidable_of_iff _ (likeMatchT_lits_pattern q.data t.data)

theorem tokenize_no_meta {q : List Char}
    (hm : ∀ c ∈ q, c ≠ '%' ∧ c ≠ '_') : tokenize q = q.map LikeTok.lit := by
  induction q with
  | nil => rfl
  | cons c q' ih =>
    have hc := hm c (List.mem_cons_self c q')
    simp only [tokenize, List.map_cons, tokChar, if_neg hc.1, if_neg hc.2]
    exact congrArg _ (ih fun d hd => hm d (List.mem_cons_of_mem c hd))

/-- On a metacharacter-free query, the `LIKE '%q%'` test is exactly
ASCII-case-insensitive substring containment. -/
theorem likeContains_iff_substrCI {q : String}
    (hm : ∀ c ∈ q.data, c ≠ '%' ∧ c ≠ '_') (t : String) :
    likeContains q t = true ↔ substrCI q t := by
  have htok : tokenize ('%' :: (q.data ++ ['%']))
      = .any :: (q.data.map LikeTok.lit ++ [.any]) := by
    simp only [tokenize, List.map_cons, List.map_append, tokChar, if_pos rfl]
    rw [← tokenize, tokenize_no_meta hm]
    rfl
  rw [likeContains, htok]
  exact likeMatchT_lits_pattern q.data t.data

/-! ### Helper lemmas: the keyframe-extraction loop -/

/-- The `scenes_data` list built by `detect_scenes` from the detector's
boundary pairs, starting at index `i`. -/
def mkScenes (vid : String) : List (ℚ × ℚ) → Nat → List SceneData
  | [], _ => []
  | (s, e) :: rest, i => ⟨i, s, e, framePath vid i⟩ :: mkScenes vid rest (i + 1)

theorem mkScenes_length (vid : String) :
    ∀ (bl : List (ℚ × ℚ)) (i : Nat), (mkScenes vid bl i).length = bl.length := by
  intro bl
  induction bl with
  | nil => intro i; rfl
  | cons hd rest ih =>
    intro i
    obtain ⟨s, e⟩ := hd
    simp [mkScenes, ih]

theorem extract_frames_ok (kf : Nat → Except String Unit) (vid : String)
    (hkf : ∀ i, kf i = .ok ()) :
    ∀ (bl : List (ℚ × ℚ)) (i : Nat) (fs : FS),
      (extract_frames kf vid bl i fs).1 = .ok (mkScenes vid bl i) ∧
      ∀ p ∈ fs, p ∈ (extract_frames kf vid bl i fs).2 := by
  intro bl
  induction bl with
  | nil => intro i fs; exact ⟨rfl, fun p hp => hp⟩
  | cons hd rest ih =>
    intro i fs
    obtain ⟨s, e⟩ := hd
    obtain ⟨h1, h2⟩ := ih (i + 1) (insertFile fs (framePath vid i))
    rcases hE : extract_frames kf vid rest (i + 1) (insertFile fs (framePath vid i))
      with ⟨r, fs2⟩
    rw [hE] at h1 h2
    simp only at h1 h2
    subst h1
    constructor
    · simp [extract_frames, hkf i, hE, mkScenes]
    · intro p hp
      simp only [extract_frames, hkf i, hE]
      exact h2 p (mem_insertFile_of_mem _ hp)

theorem detect_scenes_eq_of_kf_ok (bl : List (ℚ × ℚ)) (kf : Nat → Except String Unit)
    (db : Database) (fs : FS) (vid : String) (hkf : ∀ i, kf i = .ok ()) :
    detect_scenes (.ok bl) kf db fs vid =
      ⟨.ok (mkScenes vid bl 0), save_scenes_to_db db vid (mkScenes vid bl 0),
        (extract_frames kf vid bl 0 fs).2⟩ := by
  obtain ⟨h1, _⟩ := extract_frames_ok kf vid hkf bl 0 fs
  rcases hE : extract_frames kf vid bl 0 fs with ⟨r, fs2⟩
  rw [hE] at h1
  simp only at h1
  subst h1
  simp [detect_scenes, hE]

/-! ### Concrete fixtures -/

/-- A store holding data for an unrelated video id `"other"`. -/
def dbSample : Database :=
  ⟨[⟨"other", "o.mp4", 5, 30, 640, 480⟩],
   [⟨"other", 0, 1, "hello", 1⟩],
   [⟨"other", 0, 0, 1, "frames/other_scene_0.jpg"⟩]⟩

/-- A keyframe extractor that always succeeds. -/
def kfAllOk : Nat → Except String Unit := fun _ => .ok ()

/-! ### Claims -/

/-- C1: every stage invocation that fails leaves the Metadata Store exactly
as it was before the call — a failed transcode commits no video row, a failed
audio extraction or transcription leaves prior transcript rows unchanged, and
a failed detection or keyframe extraction leaves prior scene rows
unchanged. -/
theorem failed_stage_preserves_store :
    (∀ conv probe db fs vid e, (upload_video conv probe db fs vid).result = .error e →
      (upload_video conv probe db fs vid).db = db) ∧
    (∀ avail ap ext eng db fs vid e,
      (transcribe_video avail ap ext eng db fs vid).result = .error e →
      (transcribe_video avail ap ext eng db fs vid).db = db) ∧
    (∀ det kf db fs vid e,
      (detect_scenes det kf db fs vid).result = .error e →
      (detect_scenes det kf db fs vid).db = db) := by
  refine ⟨?_, ?_, ?_⟩
  · intro conv probe db fs vid e h
    cases conv with
    | error e2 => rfl
    | ok u => simp [upload_video] at h
  · intro avail ap ext eng db fs vid e h
    cases avail with
    | false => simp [transcribe_video]
    | true =>
      cases ext with
      | error e2 => simp [transcribe_video]
      | ok u =>
        cases heng : eng ap with
        | error e2 => simp [transcribe_video, heng]
        | ok res => simp [transcribe_video, heng] at h
  · intro det kf db fs vid e h
    cases det with
    | error e2 => rfl
    | ok bl =>
      rcases hE : extract_frames kf vid bl 0 fs with ⟨r, fs1⟩
      cases r with
      | error msg => simp [detect_scenes, hE]
      | ok scenes => simp [detect_scenes, hE] at h

/-- Witness for C1 at concrete failing invocations of all three stages. -/
theorem failed_stage_preserves_store_witness :
    ((upload_video (.error "ffmpeg exited 1") ⟨30, 150, 640, 480⟩ dbSample [] "v").db
        = dbSample) ∧
    ((transcribe_video true "tmp123.wav" (.ok ()) (fun _ => .error "whisper crash")
        dbSample [] "v").db = dbSample) ∧
    ((detect_scenes (.error "scene detect crash") kfAllOk dbSample [] "v").db = dbSample) :=
  ⟨failed_stage_preserves_store.1 _ _ _ _ _ "ffmpeg exited 1" rfl,
   failed_stage_preserves_store.2.1 _ _ _ _ _ _ _ "whisper crash" rfl,
   failed_stage_preserves_store.2.2 _ _ _ _ _ "scene detect crash" rfl⟩

/-- C2: for every video id, a search with an empty query string is rejected
with an invalid-argument error (raised by the dispatch layer before
`search_transcript` runs) rather than producing results. -/
theorem search_empty_query_rejected (db : Database) (vid : String) :
    ∃ e, handle_search db vid "" = .error e := by
  by_cases h : vid = ""
  · exact ⟨"Video ID is required for search", by simp [handle_search, h]⟩
  · exact ⟨"Query is required for search", by simp [handle_search, h]⟩

/-- C6: `_save_transcript_to_db` replaces the whole segment set for the
video id; after two successive calls only the second set is visible for that
id, with rows of other videos untouched. -/
theorem replace_transcript_second_set_wins (db : Database) (vid : String)
    (s1 s2 : List Segment) :
    ((save_transcript_to_db (save_transcript_to_db db vid s1) vid s2).transcripts.filter
        (fun r => r.video_id == vid) = s2.map (Segment.toRow vid)) ∧
    ((save_transcript_to_db (save_transcript_to_db db vid s1) vid s2).transcripts.filter
        (fun r => !(r.video_id == vid))
      = db.transcripts.filter (fun r => !(r.video_id == vid))) :=
  ⟨save_transcript_sel _ _ _, by rw [save_transcript_rest, save_transcript_rest]⟩

/-- C9: `_get_video_info` computes duration as frame count divided by frame
rate, guarded so that a frame rate of `0` yields duration `0` (and the probe
is a total function — no error path). -/
theorem probe_duration_guarded (filename : String) (p : ProbeRaw) :
    (p.fps = 0 → (get_video_info_probe filename p).duration = 0) ∧
    (p.fps > 0 → (get_video_info_probe filename p).duration = p.frame_count / p.fps) := by
  constructor
  · intro h; simp [get_video_info_probe, h]
  · intro h; simp [get_video_info_probe, h]

/-- Witness for C9 at a zero and a positive frame rate. -/
theorem probe_duration_guarded_witness :
    (get_video_info_probe "a.mp4" ⟨0, 150, 640, 480⟩).duration = 0 ∧
    (get_video_info_probe "a.mp4" ⟨30, 150, 640, 480⟩).duration = 150 / 30 :=
  ⟨(probe_duration_guarded "a.mp4" ⟨0, 150, 640, 480⟩).1 rfl,
   (probe_duration_guarded "a.mp4" ⟨30, 150, 640, 480⟩).2 (by norm_num)⟩

/-- C10: `_save_transcript_to_db` for a video id with no video row does not
fail: it deletes nothing (no prior rows for that id), inserts the given
segments, and they become visible to `search_transcript` — the declared
foreign key is never enforced since the `foreign_keys` pragma is off. -/
theorem save_transcript_ignores_missing_video (db : Database) (vid : String)
    (segs : List Segment)
    (_hvideo : get_video_info db vid = none)
    (hpre : db.transcripts.filter (fun r => r.video_id == vid) = []) :
    (save_transcript_to_db db vid segs).transcripts
        = db.transcripts ++ segs.map (Segment.toRow vid) ∧
    (search_transcript (save_transcript_to_db db vid segs) vid "").Perm
        (segs.map (Segment.toRow vid)) := by
  constructor
  · simp [save_transcript_to_db, filter_eq_of_no_match _ _ hpre]
  · have hlike : ∀ t : String, likeContains "" t = true := by
      intro t
      have htok : tokenize ('%' :: (String.data "" ++ ['%'])) = [.any, .any] := by decide
      rw [likeContains, htok]
      exact (likeMatchT_any_cons [.any] t.data).mpr
        ⟨[], t.data, rfl, likeMatchT_single_any t.data⟩
    have hfil : (save_transcript_to_db db vid segs).transcripts.filter
        (fun r => r.video_id == vid && likeContains "" r.text)
        = segs.map (Segment.toRow vid) := by
      rw [List.filter_congr (fun r _ => by rw [hlike r.text, Bool.and_true])]
      exact save_transcript_sel db vid segs
    rw [search_transcript, hfil]
    exact List.perm_insertionSort startLe _

/-- Witness for C10: inserting a transcript for the never-uploaded id
`"ghost"`. -/
theorem save_transcript_ignores_missing_video_witness :
    (save_transcript_to_db dbSample "ghost" [⟨1, 2, "hi", 0⟩]).transcripts
        = dbSample.transcripts ++ [Segment.toRow "ghost" ⟨1, 2, "hi", 0⟩] ∧
    (search_transcript (save_transcript_to_db dbSample "ghost" [⟨1, 2, "hi", 0⟩])
        "ghost" "").Perm [Segment.toRow "ghost" ⟨1, 2, "hi", 0⟩] :=
  save_transcript_ignores_missing_video dbSample "ghost" [⟨1, 2, "hi", 0⟩]
    (by decide) (by decide)

/-- C3 counterexample: `"ghost"` has no video row, yet a transcript search for
it succeeds with an empty list instead of failing with NotFound. -/
theorem query_unknown_id_counterexample :
    get_video_info dbSample "ghost" = none ∧
    handle_search dbSample "ghost" "hello" = .ok [] := by
  exact ⟨by decide, rfl⟩

/-- C3 (amended): for a video id with no video row, `get_info` fails with a
NotFound error, while `search_transcript` (with non-empty arguments) succeeds
rather than failing; no scene-listing query operation exists in the code. -/
theorem query_unknown_id_amended (db : Database) (vid q : String)
    (hvid : vid ≠ "") (hq : q ≠ "")
    (hrow : get_video_info db vid = none) :
    handle_get_info db vid = .error ("Video not found: " ++ vid) ∧
    ∃ rs, handle_search db vid q = .ok rs := by
  constructor
  · simp [handle_get_info, hvid, hrow]
  · exact ⟨search_transcript db vid q, by simp [handle_search, hvid, hq]⟩

/-- Witness for the amended C3 at the unknown id `"ghost"`. -/
theorem query_unknown_id_amended_witness :
    handle_get_info dbSample "ghost" = .error ("Video not found: " ++ "ghost") ∧
    ∃ rs, handle_search dbSample "ghost" "hi" = .ok rs :=
  query_unknown_id_amended dbSample "ghost" "hi" (by decide) (by decide) (by decide)

/-- C4 counterexample: a transcription failing after the scratch audio file
was created (engine error) returns with the scratch file still on disk — it
is not removed on that exit path. -/
theorem scratch_audio_leak_counterexample :
    (transcribe_video true "tmp123.wav" (.ok ()) (fun _ => .error "engine crash")
        dbSample [] "v").result = .error "engine crash" ∧
    "tmp123.wav" ∈ (transcribe_video true "tmp123.wav" (.ok ())
        (fun _ => .error "engine crash") dbSample [] "v").fs := by
  exact ⟨rfl, by decide⟩

/-- C4 (amended): the scratch audio file is removed when the stage succeeds;
when the engine fails after the file was created, the file remains on
disk. -/
theorem scratch_audio_cleanup_amended :
    (∀ ap eng db fs vid res, eng ap = Except.ok res →
      ap ∉ (transcribe_video true ap (.ok ()) eng db fs vid).fs) ∧
    (∀ ap eng db fs vid e, eng ap = Except.error e →
      ap ∈ (transcribe_video true ap (.ok ()) eng db fs vid).fs) := by
  constructor
  · intro ap eng db fs vid res heng
    simp only [transcribe_video, heng, if_true]
    exact not_mem_removeFile _ ap
  · intro ap eng db fs vid e heng
    simp only [transcribe_video, heng, if_true]
    exact mem_insertFile.mpr (Or.inl rfl)

/-- Witness for the amended C4: a succeeding and a failing engine call. -/
theorem scratch_audio_cleanup_amended_witness :
    "a.wav" ∉ (transcribe_video true "a.wav" (.ok ())
        (fun _ => .ok ⟨[], ""⟩) dbSample [] "v").fs ∧
    "b.wav" ∈ (transcribe_video true "b.wav" (.ok ())
        (fun _ => .error "boom") dbSample [] "v").fs :=
  ⟨scratch_audio_cleanup_amended.1 "a.wav" _ dbSample [] "v" ⟨[], ""⟩ rfl,
   scratch_audio_cleanup_amended.2 "b.wav" _ dbSample [] "v" "boom" rfl⟩

/-- First detection run for C5: two scenes for video `"v"`. -/
def runA : StageOut (List SceneData) :=
  detect_scenes (.ok [(0, 1), (1, 2)]) kfAllOk dbSample [] "v"

/-- Second detection run for C5: a single scene, over the state left by
`runA`. -/
def runB : StageOut (List SceneData) :=
  detect_scenes (.ok [(0, 2)]) kfAllOk runA.db runA.fs "v"

/-- C5 counterexample: re-running detection with fewer scenes leaves the
earlier run's keyframe `frames/v_scene_1.jpg` on disk while no committed
scene row references it — an orphaned artifact remains. -/
theorem rerun_detect_orphan_counterexample :
    runB.result = .ok [⟨0, 0, 2, framePath "v" 0⟩] ∧
    framePath "v" 1 ∈ runB.fs ∧
    ∀ r ∈ runB.db.scenes, r.frame_path ≠ framePath "v" 1 := by
  refine ⟨rfl, by decide, by decide⟩

/-- C5 (amended): a successful re-run fully replaces the scene row set for
the video and overwrites the keyframes at the new run's indices, but deletes
no file — keyframe files of an earlier run beyond the new scene count remain
on disk. -/
theorem rerun_detect_amended (bl : List (ℚ × ℚ)) (kf : Nat → Except String Unit)
    (db : Database) (fs : FS) (vid : String) (hkf : ∀ i, kf i = .ok ()) :
    ((detect_scenes (.ok bl) kf db fs vid).db.scenes.filter (fun r => r.video_id == vid)
        = (mkScenes vid bl 0).map (SceneData.toRow vid)) ∧
    (∀ p ∈ fs, p ∈ (detect_scenes (.ok bl) kf db fs vid).fs) := by
  rw [detect_scenes_eq_of_kf_ok bl kf db fs vid hkf]
  exact ⟨save_scenes_sel db vid _, (extract_frames_ok kf vid hkf bl 0 fs).2⟩

/-- Witness for the amended C5: one new scene over a disk holding a stale
keyframe. -/
theorem rerun_detect_amended_witness :
    ((detect_scenes (.ok [((0 : ℚ), (2 : ℚ))]) kfAllOk dbSample
        ["frames/v_scene_1.jpg"] "v").db.scenes.filter (fun r => r.video_id == "v")
      = (mkScenes "v" [(0, 2)] 0).map (SceneData.toRow "v")) ∧
    (∀ p ∈ (["frames/v_scene_1.jpg"] : FS),
      p ∈ (detect_scenes (.ok [((0 : ℚ), (2 : ℚ))]) kfAllOk dbSample
        ["frames/v_scene_1.jpg"] "v").fs) :=
  rerun_detect_amended [(0, 2)] kfAllOk dbSample ["frames/v_scene_1.jpg"] "v"
    (fun _ => rfl)

/-- C8: when every keyframe extraction succeeds, a run commits exactly one
scene row per detector boundary pair, and zero boundaries yield success with
an empty scene list and an empty stored scene set for the video. -/
theorem detect_scene_count_matches (bl : List (ℚ × ℚ)) (kf : Nat → Except String Unit)
    (db : Database) (fs : FS) (vid : String) (hkf : ∀ i, kf i = .ok ()) :
    ((detect_scenes (.ok bl) kf db fs vid).result = .ok (mkScenes vid bl 0)) ∧
    ((mkScenes vid bl 0).length = bl.length) ∧
    ((detect_scenes (.ok bl) kf db fs vid).db.scenes.filter (fun r => r.video_id == vid)
        = (mkScenes vid bl 0).map (SceneData.toRow vid)) ∧
    (bl = [] → (detect_scenes (.ok bl) kf db fs vid).result = .ok [] ∧
      (detect_scenes (.ok bl) kf db fs vid).db.scenes.filter
        (fun r => r.video_id == vid) = []) := by
  rw [detect_scenes_eq_of_kf_ok bl kf db fs vid hkf]
  refine ⟨rfl, mkScenes_length vid bl 0, save_scenes_sel db vid _, ?_⟩
  rintro rfl
  exact ⟨rfl, save_scenes_sel db vid _⟩

/-- Witness for C8 with two boundary pairs. -/
theorem detect_scene_count_matches_witness :
    ((detect_scenes (.ok [((0 : ℚ), (1 : ℚ)), (1, 2)]) kfAllOk dbSample [] "v").result
        = .ok (mkScenes "v" [(0, 1), (1, 2)] 0)) ∧
    ((mkScenes "v" [(0, 1), (1, 2)] 0).length = [((0 : ℚ), (1 : ℚ)), (1, 2)].length) ∧
    ((detect_scenes (.ok [((0 : ℚ), (1 : ℚ)), (1, 2)]) kfAllOk dbSample [] "v").db.scenes.filter
        (fun r => r.video_id == "v")
      = (mkScenes "v" [(0, 1), (1, 2)] 0).map (SceneData.toRow "v")) ∧
    ([((0 : ℚ), (1 : ℚ)), (1, 2)] = ([] : List (ℚ × ℚ)) →
      (detect_scenes (.ok [((0 : ℚ), (1 : ℚ)), (1, 2)]) kfAllOk dbSample [] "v").result
          = .ok [] ∧
      (detect_scenes (.ok [((0 : ℚ), (1 : ℚ)), (1, 2)]) kfAllOk dbSample [] "v").db.scenes.filter
        (fun r => r.video_id == "v") = []) :=
  detect_scene_count_matches [(0, 1), (1, 2)] kfAllOk dbSample [] "v" (fun _ => rfl)

/-- A store with one segment whose text is `"abc"`, for the C7
counterexample. -/
def dbLike : Database :=
  ⟨[⟨"v", "v.mp4", 3, 30, 640, 480⟩], [⟨"v", 0, 1, "abc", 0⟩], []⟩

/-- C7 counterexample: for the query `"a_c"` the underscore acts as an SQL
`LIKE` wildcard, so the segment `"abc"` is returned even though `"a_c"` is
not a substring of `"abc"` — neither case-sensitively nor under ASCII case
folding. -/
theorem search_substring_counterexample :
    search_transcript dbLike "v" "a_c" = [⟨"v", 0, 1, "abc", 0⟩] ∧
    ¬ substrCI "a_c" "abc" ∧ ¬ substrCS "a_c" "abc" := by
  have hci : ¬ substrCI "a_c" "abc" := by decide
  exact ⟨rfl, hci, fun h => hci (substrCS_to_CI h)⟩

/-- C7 (amended): for a non-empty query free of the `LIKE` metacharacters
`%` and `_`, the search returns exactly the segments of the video whose text
contains the query as an ASCII-case-insensitive substring (SQLite's default
`LIKE` case policy), sorted by start time whatever the insertion order; a
query matching nothing yields the empty list, not an error. -/
theorem search_transcript_substring_spec (db : Database) (vid q : String)
    (_hq : q ≠ "") (hm : ∀ c ∈ q.data, c ≠ '%' ∧ c ≠ '_') :
    ((search_transcript db vid q).Perm
        (db.transcripts.filter
          (fun r => r.video_id == vid && decide (substrCI q r.text)))) ∧
    List.Sorted startLe (search_transcript db vid q) ∧
    ((∀ r ∈ db.transcripts, r.video_id = vid → ¬ substrCI q r.text) →
      search_transcript db vid q = []) := by
  have hfil : db.transcripts.filter (fun r => r.video_id == vid && likeContains q r.text)
      = db.transcripts.filter
          (fun r => r.video_id == vid && decide (substrCI q r.text)) := by
    refine List.filter_congr (fun r _ => ?_)
    have hiff : (likeContains q r.text = true) ↔ (decide (substrCI q r.text) = true) := by
      rw [decide_eq_true_iff]
      exact likeContains_iff_substrCI hm r.text
    rw [Bool.eq_iff_iff.mpr hiff]
  refine ⟨?_, ?_, ?_⟩
  · rw [search_transcript, hfil]
    exact List.perm_insertionSort startLe _
  · rw [search_transcript]
    exact List.sorted_insertionSort startLe _
  · intro hnone
    rw [search_transcript]
    have hnil : db.transcripts.filter
        (fun r => r.video_id == vid && likeContains q r.text) = [] := by
      rw [List.filter_eq_nil_iff]
      intro r hr
      simp only [Bool.and_eq_true, not_and]
      intro hbeq
      rw [likeContains_iff_substrCI hm]
      exact hnone r hr (beq_iff_eq.mp hbeq)
    rw [hnil]
    rfl

/-- A store with out-of-order, mixed-case segments for the C7 witness. -/
def dbSearch : Database :=
  ⟨[⟨"v", "v.mp4", 9, 30, 640, 480⟩],
   [⟨"v", 5, 6, "and HELLO again", 0⟩, ⟨"v", 0, 1, "hello world", 0⟩,
    ⟨"v", 2, 3, "nothing here", 0⟩, ⟨"other", 1, 2, "hello", 0⟩],
   []⟩

/-- Witness for the amended C7 with the mixed-case query `"Hello"`. -/
theorem search_transcript_substring_spec_witness :
    ((search_transcript dbSearch "v" "Hello").Perm
        (dbSearch.transcripts.filter
          (fun r => r.video_id == "v" && decide (substrCI "Hello" r.text)))) ∧
    List.Sorted startLe (search_transcript dbSearch "v" "Hello") ∧
    ((∀ r ∈ dbSearch.transcripts, r.video_id = "v" → ¬ substrCI "Hello" r.text) →
      search_transcript dbSearch "v" "Hello" = []) :=
  search_transcript_substring_spec dbSearch "v" "Hello" (by decide) (by decide)
